import Mathlib

/-!
Verification of the image-evidence pipeline of `next-image-check`.

The TypeScript sources are shallowly embedded:
* JS strings are modelled as `List Char` (`Str`); the handful of string
  primitives the code uses (`split`, `toLowerCase`, `startsWith`,
  `includes`, `endsWith`) are given executable Lean counterparts with the
  JS semantics (e.g. `"".split(".") = [""]`, truthiness of strings).
* JS numbers are integers (`Nat`/`Int`) where the code only ever holds
  integers (byte sizes, scores, widths); the aggregator's fractional
  arithmetic is modelled exactly over `ℚ`.
* Platform builtins (`new URL`, `Date` comparison, the network) enter as
  explicit oracle parameters, universally quantified in the theorems.
-/

/-- JS strings are modelled as lists of characters. -/
abbrev Str := List Char

/-- The character list of a Lean string literal, used to write JS string
literals from the source compactly. -/
def str (s : String) : Str := s.data

namespace NextImageCheck

/-- JS truthiness of a nullable string: `null`/`undefined` and `""` are falsy. -/
def truthy : Option Str → Bool
  | none => false
  | some s => !s.isEmpty

/-- JS `String.prototype.toLowerCase` (character-wise lowering; the code only
applies it to ASCII header values and URL extensions). -/
def jsToLower (s : Str) : Str := s.map Char.toLower

/-- JS `String.prototype.startsWith`. -/
def jsStartsWith (pre s : Str) : Bool := pre.isPrefixOf s

/-- JS `String.prototype.includes sub` — substring containment. -/
def jsIncludes (sub : Str) : Str → Bool
  | [] => sub.isEmpty
  | c :: rest => sub.isPrefixOf (c :: rest) || jsIncludes sub rest

/-- JS `String.prototype.split` with a single-character separator:
`"".split(".") = [""]`, `".".split(".") = ["", ""]`. -/
def jsSplit (sep : Char) : Str → List Str
  | [] => [([] : Str)]
  | c :: rest =>
    match jsSplit sep rest with
    | h :: r => if c = sep then [] :: h :: r else (c :: h) :: r
    | [] => [[c]]

/-! ## Format/Identity Resolver — `src/lib/utils/image.ts`, `getImageFormatFromUrl` -/

/-- The fixed extension allow-list of `getImageFormatFromUrl`. -/
def imageExtensionAllowList : List Str :=
  [str "jpg", str "jpeg", str "png", str "gif", str "webp", str "avif", str "svg"]

/-- The URL-extension path of `getImageFormatFromUrl`: lower-case the last
`.`-separated segment (`url.split(".").pop()?.toLowerCase()` — `pop` on the
result of `split` always yields an element), match it against the
allow-list, mapping `"jpg"` to `"jpeg"`, else `"unknown"`. -/
def formatFromExtension (url : Str) : Str :=
  let extension := jsToLower ((jsSplit '.' url).getLastD [])
  if !extension.isEmpty && imageExtensionAllowList.contains extension then
    if extension = str "jpg" then str "jpeg" else extension
  else str "unknown"

/-- `getImageFormatFromUrl(url, contentType)`: if a truthy content-type
starting with `"image/"` is declared, return `contentType.split("/")[1]`
(the raw subtype); otherwise fall back to the URL-extension path. -/
def getImageFormatFromUrl (url : Str) (contentType : Option Str) : Str :=
  match contentType with
  | some ct =>
    if !ct.isEmpty && jsStartsWith (str "image/") ct then
      (jsSplit '/' ct).getD 1 []
    else formatFromExtension url
  | none => formatFromExtension url

/-- The sharp-metadata override in `analyzeUrl` (`format = metadata.format || format`):
a truthy decoded format replaces the current guess, a missing/empty one keeps it. -/
def formatAfterSharp (metaFormat : Option Str) (format : Str) : Str :=
  match metaFormat with
  | some m => if m.isEmpty then format else m
  | none => format

/-- The finite format set named by the specification. -/
def specFormatSet : List Str :=
  [str "jpeg", str "png", str "gif", str "webp", str "avif", str "svg", str "unknown"]

example : getImageFormatFromUrl (str "https://e.com/a.JPG") none = str "jpeg" := by decide
example : getImageFormatFromUrl (str "https://e.com/a.jpg?v=2") none = str "unknown" := by decide
example : getImageFormatFromUrl (str "x") (some (str "image/x-icon")) = str "x-icon" := by decide
example : getImageFormatFromUrl (str "a.png") (some (str "image/")) = str "" := by decide

/-! ## Responsive-Variant Analyzer — `src/lib/utils/image.ts`, `analyzeSrcSet` -/

/-- One parsed `srcset` entry (`parseSrcSet` output): a URL with an optional
width (from a `…w` descriptor) or density (from a `…x` descriptor). -/
structure SrcSetItem where
  url : Str
  width : Option Int := none
  density : Option ℚ := none
deriving DecidableEq, Repr

/-- The summary produced by `analyzeSrcSet` (`SrcSetAnalysis` in `types.ts`). -/
structure SrcSetAnalysis where
  transformationCount : Nat
  hasAppropriateRange : Bool
  hasMobileSize : Bool
  hasDesktopSize : Bool
  sizeRange : Option (Int × Int)
deriving DecidableEq, Repr

/-- The JS comparison `max / min >= 2` on integer widths: exact real division,
where `min = 0` gives `Infinity`/`NaN`/`-Infinity` depending on the sign of
`max` (so the comparison holds iff `0 < max` there). -/
def jsRatioGETwo (mx mn : Int) : Bool :=
  if 0 < mn then decide (2 * mn ≤ mx)
  else if mn < 0 then decide (mx ≤ 2 * mn)
  else decide (0 < mx)

/-- `analyzeSrcSet`: empty input gives the all-false summary; otherwise the
width-bearing entries (if any) drive range/mobile/desktop flags from their
min/max, else the density-bearing entries do, else everything but the count
is false/null. `Math.min(...l)`/`Math.max(...l)` on the non-empty list `l`
are folds of `min`/`max` over it. -/
def analyzeSrcSet (srcsetItems : List SrcSetItem) : SrcSetAnalysis :=
  if srcsetItems.isEmpty then
    { transformationCount := 0, hasAppropriateRange := false, hasMobileSize := false,
      hasDesktopSize := false, sizeRange := none }
  else
    let transformationCount := srcsetItems.length
    match srcsetItems.filterMap SrcSetItem.width with
    | w :: ws =>
      let mn := ws.foldl min w
      let mx := ws.foldl max w
      { transformationCount,
        hasAppropriateRange := jsRatioGETwo mx mn,
        hasMobileSize := decide (mn ≤ 640),
        hasDesktopSize := decide (1024 ≤ mx),
        sizeRange := some (mn, mx) }
    | [] =>
      match srcsetItems.filterMap SrcSetItem.density with
      | d :: ds =>
        { transformationCount,
          hasAppropriateRange := decide (2 ≤ ds.foldl max d),
          hasMobileSize := true,
          hasDesktopSize := true,
          sizeRange := none }
      | [] =>
        { transformationCount, hasAppropriateRange := false, hasMobileSize := false,
          hasDesktopSize := false, sizeRange := none }

/-! ## Network-Evidence Extractor — `parseCacheStatus` result type -/

/-- The result record of `parseCacheStatus`. -/
structure CacheInfo where
  cacheHit : Bool
  cacheProvider : Option Str := none
  ttl : Option Int := none
  cacheControl : Option Str := none
deriving DecidableEq, Repr

/-! ## Scoring Engine — `src/lib/utils/image.ts`, `calculateOptimizationScore` -/

/-!
`calculateOptimizationScore` starts at 100 and reassigns `score` once per
factor, in source order, clamping to `[0, 100]` at the end. Each sequential
`score` update is its own step function below, composed in source order. -/

/-- `if (cacheInfo && !cacheInfo.cacheHit) score -= 15`. -/
def cacheScoreStep (score : Int) : Option CacheInfo → Int
  | some ci => if !ci.cacheHit then score - 15 else score
  | none => score

/-- The format-based `else if` chain. -/
def formatScoreStep (score : Int) (format : Str) : Int :=
  if format = str "webp" ∨ format = str "avif" then score
  else if format = str "png" then score - 15
  else if format = str "jpeg" ∨ format = str "jpg" then score - 10
  else if format = str "gif" then score - 30
  else score - 5

/-- The size-based `else if` chain (the `> 100000` branch subtracts 0). -/
def sizeScoreStep (score : Int) (size : Int) : Int :=
  if size > 1000000 then score - 20
  else if size > 500000 then score - 10
  else if size > 200000 then score - 5
  else if size > 100000 then score - 0
  else score

/-- The dimension-based chain over `totalPixels = width * height`. -/
def dimensionScoreStep (score : Int) : Option (Int × Int) → Int
  | some (width, height) =>
    let totalPixels := width * height
    if totalPixels > 2000000 then score - 15
    else if totalPixels > 1000000 then score - 10
    else if totalPixels > 500000 then score - 5
    else score
  | none => score

/-- The responsive-variant chain: missing analysis or zero transformations
cost 15, fewer than two cost 5. -/
def variantScoreStep (score : Int) : Option SrcSetAnalysis → Int
  | none => score - 15
  | some sa =>
    if sa.transformationCount = 0 then score - 15
    else if sa.transformationCount < 2 then score - 5
    else score

/-- `if (!isUsingNextImage) score -= 15`. -/
def componentScoreStep (score : Int) (isUsingNextImage : Bool) : Int :=
  if !isUsingNextImage then score - 15 else score

/-- `calculateOptimizationScore`: the six sequential deductions applied to
100, then `Math.max(0, Math.min(100, score))`. -/
def calculateOptimizationScore (format : Str) (size : Int)
    (dimensions : Option (Int × Int)) (isUsingNextImage : Bool)
    (srcsetAnalysis : Option SrcSetAnalysis) (cacheInfo : Option CacheInfo) : Int :=
  max 0 (min 100
    (componentScoreStep
      (variantScoreStep
        (dimensionScoreStep
          (sizeScoreStep
            (formatScoreStep (cacheScoreStep 100 cacheInfo) format)
            size)
          dimensions)
        srcsetAnalysis)
      isUsingNextImage))

/-! Claim-side penalty weights, written from the specification's wording. -/

/-- Spec: cache evidence present and not a hit costs 15. -/
def specCachePenalty : Option CacheInfo → Int
  | some ci => if ci.cacheHit then 0 else 15
  | none => 0

/-- Claim C1's format weights taken literally: `webp`/`avif` 0, `png` 15,
`jpeg` 10, `gif` 30, anything else 5. -/
def claimFormatPenalty (format : Str) : Int :=
  if format = str "webp" ∨ format = str "avif" then 0
  else if format = str "png" then 15
  else if format = str "jpeg" then 10
  else if format = str "gif" then 30
  else 5

/-- Format weights as the code applies them: the `"jpg"` spelling of JPEG is
also charged 10, not the catch-all 5. -/
def specFormatPenalty (format : Str) : Int :=
  if format = str "webp" ∨ format = str "avif" then 0
  else if format = str "png" then 15
  else if format = str "jpeg" ∨ format = str "jpg" then 10
  else if format = str "gif" then 30
  else 5

/-- Spec: byte-size weights 20/10/5/0 at the 1 MB / 500 KB / 200 KB steps. -/
def specSizePenalty (size : Int) : Int :=
  if size > 1000000 then 20
  else if size > 500000 then 10
  else if size > 200000 then 5
  else 0

/-- Spec: pixel-area weights 15/10/5 at the 2 MP / 1 MP / 0.5 MP steps, 0 when
dimensions are unknown. -/
def specDimensionPenalty : Option (Int × Int) → Int
  | some (w, h) =>
    if w * h > 2000000 then 15
    else if w * h > 1000000 then 10
    else if w * h > 500000 then 5
    else 0
  | none => 0

/-- Spec: no responsive variants 15, exactly one variant 5, otherwise 0. -/
def specVariantPenalty : Option SrcSetAnalysis → Int
  | none => 15
  | some sa =>
    if sa.transformationCount = 0 then 15
    else if sa.transformationCount = 1 then 5
    else 0

/-- Spec: not using the framework image component costs 15. -/
def specComponentPenalty (isUsingNextImage : Bool) : Int :=
  if isUsingNextImage then 0 else 15

/-! ## Network-Evidence Extractor — `parseCacheStatus`

The header set is modelled by the keys `parseCacheStatus` actually queries
(`Headers.get` is case-insensitive, so `'Expires'` and `"x-vercel-cache"`
lookups are plain fields); an absent header is `none`. -/

/-- The response headers consulted by `parseCacheStatus`. -/
structure HeadersM where
  xVercelCache : Option Str := none
  cfCacheStatus : Option Str := none
  xCache : Option Str := none
  xServedBy : Option Str := none
  xAdobeCachekey : Option Str := none
  cacheControl : Option Str := none
  expires : Option Str := none
deriving DecidableEq, Repr

/-- JS `String.prototype.trim`. -/
def jsTrim (l : Str) : Str :=
  ((l.dropWhile Char.isWhitespace).reverse.dropWhile Char.isWhitespace).reverse

/-- ASCII letter, the `[a-z]` class under the regex `i` flag. -/
def isAsciiLetter (c : Char) : Bool := c.toLower.isLower

/-- Drop a literal pattern prefix case-insensitively, returning the rest. -/
def dropPrefixCI (pre : Str) (l : Str) : Option Str :=
  match pre, l with
  | [], rest => some rest
  | _ :: _, [] => none
  | p :: ps, c :: cs => if p.toLower = c.toLower then dropPrefixCI ps cs else none

/-- Match `/cache-[a-z]{3}-[a-z]+\d+-[a-z]{3}/i` anchored at the head of the
list. The letter and digit classes are disjoint, so the greedy `+`s need no
backtracking. -/
def fastlyPopAt (l : Str) : Bool :=
  match dropPrefixCI (str "cache-") l with
  | none => false
  | some r1 =>
    match r1 with
    | a :: b :: c :: '-' :: rest =>
      if isAsciiLetter a && isAsciiLetter b && isAsciiLetter c then
        let afterLetters := rest.dropWhile isAsciiLetter
        if rest.length = afterLetters.length then false
        else
          let afterDigits := afterLetters.dropWhile Char.isDigit
          if afterLetters.length = afterDigits.length then false
          else
            match afterDigits with
            | '-' :: d :: e :: f :: _ => isAsciiLetter d && isAsciiLetter e && isAsciiLetter f
            | _ => false
      else false
    | _ => false

/-- `RegExp.prototype.test` for the Fastly pop pattern: unanchored search. -/
def fastlyPatternTest : Str → Bool
  | [] => fastlyPopAt []
  | c :: rest => fastlyPopAt (c :: rest) || fastlyPatternTest rest

/-- `Number.parseInt` on a non-empty digit string. -/
def digitsToNat (ds : Str) : Nat :=
  ds.foldl (fun n c => n * 10 + (c.toNat - '0'.toNat)) 0

/-- First match of `/max-age=(\d+)/`: scan for the literal `max-age=`
followed by at least one digit, returning the greedy digit run's value. -/
def findMaxAge : Str → Option Nat
  | [] => none
  | c :: rest =>
    let l := c :: rest
    if (str "max-age=").isPrefixOf l then
      let ds := (l.drop 8).takeWhile Char.isDigit
      if ds.isEmpty then findMaxAge rest else some (digitsToNat ds)
    else findMaxAge rest

/-!
`parseCacheStatus` (the current `@/lib/utils/network` version) starts from
`{cacheHit: false}` and reassigns `result` once per provider rule in source
order; each sequential update is its own stage function below, composed in
source order. `expiresAfterNow` is the environment oracle for
`new Date(expire) > new Date()` (an invalid date compares false). -/

/-- Vercel rule: `x-vercel-cache` present (truthy) sets hit iff the value is
exactly `"HIT"` and provider `"Vercel"`. -/
def vercelStage (headers : HeadersM) (result : CacheInfo) : CacheInfo :=
  match headers.xVercelCache with
  | some vercelCache =>
    if !vercelCache.isEmpty then
      { result with cacheHit := decide (vercelCache = str "HIT"),
                    cacheProvider := some (str "Vercel") }
    else result
  | none => result

/-- Cloudflare rule: `cf-cache-status` present sets hit iff the lower-cased
value is `"hit"` and provider `"Cloudflare"` (no provider guard). -/
def cloudflareStage (headers : HeadersM) (result : CacheInfo) : CacheInfo :=
  match headers.cfCacheStatus with
  | some cfCache =>
    if !cfCache.isEmpty then
      { result with cacheHit := decide (jsToLower cfCache = str "hit"),
                    cacheProvider := some (str "Cloudflare") }
    else result
  | none => result

/-- AWS rule: `x-cache` containing `'cloudfront'` sets hit iff the
lower-cased value contains `'hit'` and provider `"Cloudfront"` (no provider
guard). -/
def cloudfrontStage (headers : HeadersM) (result : CacheInfo) : CacheInfo :=
  match headers.xCache with
  | some awsCache =>
    if !awsCache.isEmpty && jsIncludes (str "cloudfront") awsCache then
      { result with cacheHit := jsIncludes (str "hit") (jsToLower awsCache),
                    cacheProvider := some (str "Cloudfront") }
    else result
  | none => result

/-- Fastly rule: `x-cache` gated by an `x-served-by` pop identifier matching
the Fastly pattern, only if no provider was assigned yet. -/
def fastlyStage (headers : HeadersM) (result : CacheInfo) : CacheInfo :=
  match headers.xCache, headers.xServedBy with
  | some fastlyCache, some fastlyXServedBy =>
    if !fastlyCache.isEmpty && (!fastlyXServedBy.isEmpty && result.cacheProvider.isNone) then
      if fastlyPatternTest (jsTrim ((jsSplit ',' fastlyXServedBy).headD [])) then
        { result with cacheHit := jsIncludes (str "HIT") fastlyCache,
                      cacheProvider := some (str "Fastly") }
      else result
    else result
  | _, _ => result

/-- Akamai rule: `x-cache` containing `'TCP'`, only if no provider yet. -/
def akamaiStage (headers : HeadersM) (result : CacheInfo) : CacheInfo :=
  match headers.xCache with
  | some akamaiCache =>
    if !akamaiCache.isEmpty && (result.cacheProvider.isNone && jsIncludes (str "TCP") akamaiCache) then
      { result with cacheHit := jsIncludes (str "HIT") akamaiCache,
                    cacheProvider := some (str "Akamai") }
    else result
  | none => result

/-- Adobe AEM rule: presence of `x-adobe-cachekey`, only if no provider yet;
assigns a provider with no hit signal. -/
def adobeStage (headers : HeadersM) (result : CacheInfo) : CacheInfo :=
  match headers.xAdobeCachekey with
  | some adobeCache =>
    if result.cacheProvider.isNone && !adobeCache.isEmpty then
      { result with cacheProvider := some (str "Adobe AEM") }
    else result
  | none => result

/-- Standard cache-control handling: record the raw header, infer a hit from
a future `Expires` when no hit was found yet, extract `max-age` as the TTL,
and default the provider to `"Generic"` on a public/private directive. -/
def cacheControlStage (expiresAfterNow : Str → Bool) (headers : HeadersM)
    (result : CacheInfo) : CacheInfo :=
  match headers.cacheControl with
  | some cacheControl =>
    if !cacheControl.isEmpty then
      let result := { result with cacheControl := some cacheControl }
      let result :=
        match headers.expires with
        | some expire =>
          if !expire.isEmpty && !result.cacheHit then
            { result with cacheHit := expiresAfterNow expire }
          else result
        | none => result
      let result :=
        match findMaxAge cacheControl with
        | some n => { result with ttl := some (n : Int) }
        | none => result
      if result.cacheProvider.isNone &&
          (jsIncludes (str "public") cacheControl || jsIncludes (str "private") cacheControl) then
        { result with cacheProvider := some (str "Generic") }
      else result
    else result
  | none => result

/-- `parseCacheStatus(headers)`: the provider rules applied to
`{cacheHit: false}` in source order, then the cache-control handling. -/
def parseCacheStatus (expiresAfterNow : Str → Bool) (headers : HeadersM) : CacheInfo :=
  cacheControlStage expiresAfterNow headers
    (adobeStage headers
      (akamaiStage headers
        (fastlyStage headers
          (cloudfrontStage headers
            (cloudflareStage headers
              (vercelStage headers { cacheHit := false }))))))

example :
    parseCacheStatus (fun _ => false)
      { xVercelCache := some (str "HIT"), cfCacheStatus := some (str "MISS") } =
    { cacheHit := false, cacheProvider := some (str "Cloudflare") } := by decide

example :
    parseCacheStatus (fun _ => false)
      { xCache := some (str "HIT from cloudfront") } =
    { cacheHit := true, cacheProvider := some (str "Cloudfront") } := by decide

example :
    parseCacheStatus (fun _ => false)
      { xCache := some (str "MISS"), xServedBy := some (str " cache-iad-kiad7000042-IAD, x") } =
    { cacheHit := false, cacheProvider := some (str "Fastly") } := by decide

example :
    parseCacheStatus (fun _ => false)
      { cacheControl := some (str "public, max-age=3600") } =
    { cacheHit := false, cacheProvider := some (str "Generic"), ttl := some 3600,
      cacheControl := some (str "public, max-age=3600") } := by decide

/-! ## Normalized records, LCP Selector and Aggregator — `analyzeUrl` (part_004) -/

/-- A processed per-image record (the fields of `ImageInfo` the
post-processing stages read or write). -/
structure ImageInfo where
  src : Str
  size : Nat
  format : Str := str "unknown"
  optimizationScore : Int := 0
  isLCP : Bool := false
  isUsingNextImage : Bool := false
  isInViewport : Bool := true
  isVisible : Bool := true
  recommendations : List Str := []
deriving DecidableEq, Repr

/-- The recommendation unshift-ed onto the flagged LCP record. -/
def lcpRecommendation : Str :=
  str "This is an LCP element - use the Next.js Image component with priority attribute"

/-- The body of the LCP `forEach` on a matching record: set `isLCP` and, when
the record is not using the framework component on a likely framework site,
unshift the LCP recommendation. -/
def markLCP (isLikelyNextJsSite : Bool) (img : ImageInfo) : ImageInfo :=
  let img := { img with isLCP := true }
  if !img.isUsingNextImage && isLikelyNextJsSite then
    { img with recommendations := lcpRecommendation :: img.recommendations }
  else img

/-- The running `largestImage` tracker: starts at `{src: "", size: 0}` and is
replaced whenever a processed image is strictly larger. The concurrent
updates are modelled in enumeration order. -/
def trackLargestImage (processedImages : List ImageInfo) : Str × Nat :=
  processedImages.foldl
    (fun largest img => if img.size > largest.2 then (img.src, img.size) else largest)
    (str "", 0)

/-- The LCP-flagging stage of `analyzeUrl`: filter the visible in-viewport
records; if any exist, `reduce` them (initial value = first element) to the
first strictly-largest one and mark every record whose `src` matches; else
mark every record whose `src` matches the `largestImage` tracker. -/
def flagLCP (isLikelyNextJsSite : Bool) (processedImages : List ImageInfo) : List ImageInfo :=
  let largestImage := trackLargestImage processedImages
  let visibleViewportImages := processedImages.filter (fun img => img.isVisible && img.isInViewport)
  match visibleViewportImages with
  | [] =>
    processedImages.map (fun img =>
      if img.src = largestImage.1 then markLCP isLikelyNextJsSite img else img)
  | v :: vs =>
    let largestViewportImage :=
      (v :: vs).foldl (fun largest current => if current.size > largest.size then current else largest) v
    processedImages.map (fun img =>
      if img.src = largestViewportImage.src then markLCP isLikelyNextJsSite img else img)

/-- `totalSize`: the reduce summing all processed sizes. -/
def totalSize (processedImages : List ImageInfo) : Nat :=
  processedImages.foldl (fun sum img => sum + img.size) 0

/-- `potentialSavings`: the reduce accumulating `size * savingsPercentage`,
where the percentage is `(80 - score)/100` for scores below 80 and 0
otherwise. JS float arithmetic is modelled exactly over `ℚ`. -/
def potentialSavings (processedImages : List ImageInfo) : ℚ :=
  processedImages.foldl
    (fun sum img =>
      let savingsPercentage : ℚ :=
        if img.optimizationScore < 80 then ((80 - img.optimizationScore : Int) : ℚ) / 100 else 0
      sum + (img.size : ℚ) * savingsPercentage)
    0

/-- `potentialSavingsPercentage`: `totalSize > 0 ? potentialSavings / totalSize * 100 : 0`. -/
def potentialSavingsPercentage (processedImages : List ImageInfo) : ℚ :=
  if 0 < totalSize processedImages then
    potentialSavings processedImages / (totalSize processedImages : ℚ) * 100
  else 0

/-! ## The `analyzeUrl` entry point (outcome model)

Everything between URL validation and the post-processing stages —
launching the browser or fetching the page, per-image fetches, decoding —
is networkic and enters as an environment oracle (`runCollection`), which
also reports the network events it performed.  The code before the
`new URL(url)` call performs no network activity (it only tests module
availability), and the outer `catch` wraps every thrown error in one
generic failure; failures are modelled by their cause. -/

/-- A network action performed during an analysis. -/
inductive NetEvent where
  | browserNavigate (url : Str)
  | pageFetch (url : Str)
  | imageFetch (url : Str)
deriving DecidableEq, Repr

/-- The specification's error taxonomy for whole-run failures (the code
wraps each cause in one generic `Error`; the cause is what is modelled). -/
inductive AnalyzeError where
  | invalidUrl
  | renderFailed
  | fetchFailed
deriving DecidableEq, Repr

/-- The `ImageAnalysis` result object. -/
structure ImageAnalysis where
  url : Str
  images : List ImageInfo
  totalSize : Nat
  potentialSavings : ℚ
  potentialSavingsPercentage : ℚ
  isLikelyNextJsSite : Bool
  renderedWithPuppeteer : Bool

/-- The environment an analysis runs in: the WHATWG URL parser (`new URL`
throws on non-parseable absolute URLs, modelled as `none`), availability of
the rendering modules, and the whole collection/normalization phase as an
oracle from (usePuppeteer, parsed URL, raw URL) to either a fatal error or
(isLikelyNextJsSite, processed records), together with the network events
it performed. -/
structure AnalyzeEnv where
  parseUrl : Str → Option (Str × Str)
  puppeteerAvailable : Bool
  runCollection : Bool → Str × Str → Str →
    Except AnalyzeError (Bool × List ImageInfo) × List NetEvent

/-- `analyzeUrl(url)`: validate the URL first (`new URL` throws before any
collection), run the chosen collection strategy, then the pure
post-processing: LCP flagging followed by the aggregate totals. Returns the
outcome together with the network events performed. -/
def analyzeUrl (env : AnalyzeEnv) (url : Str) :
    Except AnalyzeError ImageAnalysis × List NetEvent :=
  let usePuppeteer := env.puppeteerAvailable
  match env.parseUrl url with
  | none => (Except.error AnalyzeError.invalidUrl, [])
  | some parsedUrl =>
    match env.runCollection usePuppeteer parsedUrl url with
    | (Except.error e, trace) => (Except.error e, trace)
    | (Except.ok (isLikelyNextJsSite, rawProcessed), trace) =>
      let processedImages := flagLCP isLikelyNextJsSite rawProcessed
      (Except.ok
        { url
          images := processedImages
          totalSize := totalSize processedImages
          potentialSavings := potentialSavings processedImages
          potentialSavingsPercentage := potentialSavingsPercentage processedImages
          isLikelyNextJsSite
          renderedWithPuppeteer := usePuppeteer },
       trace)

/-! # Theorems -/

/-! ## Helper lemmas: each score step subtracts its spec penalty -/

lemma cacheScoreStep_eq (s : Int) (ci : Option CacheInfo) :
    cacheScoreStep s ci = s - specCachePenalty ci := by
  rcases ci with _ | ci <;> simp [cacheScoreStep, specCachePenalty] <;> split_ifs <;>
    simp_all <;> omega

lemma formatScoreStep_eq (s : Int) (format : Str) :
    formatScoreStep s format = s - specFormatPenalty format := by
  unfold formatScoreStep specFormatPenalty
  split_ifs <;> omega

lemma sizeScoreStep_eq (s size : Int) :
    sizeScoreStep s size = s - specSizePenalty size := by
  unfold sizeScoreStep specSizePenalty
  split_ifs <;> omega

lemma dimensionScoreStep_eq (s : Int) (d : Option (Int × Int)) :
    dimensionScoreStep s d = s - specDimensionPenalty d := by
  rcases d with _ | ⟨w, h⟩ <;> simp only [dimensionScoreStep, specDimensionPenalty] <;>
    first
    | omega
    | (split_ifs <;> omega)

lemma variantScoreStep_eq (s : Int) (sa : Option SrcSetAnalysis) :
    variantScoreStep s sa = s - specVariantPenalty sa := by
  rcases sa with _ | sa <;> simp only [variantScoreStep, specVariantPenalty] <;>
    split_ifs <;> omega

lemma componentScoreStep_eq (s : Int) (b : Bool) :
    componentScoreStep s b = s - specComponentPenalty b := by
  cases b <;> simp [componentScoreStep, specComponentPenalty]

/-! ## C1 — the optimization-score formula -/

/-- C1 (counterexample): the claim's weighted-penalty table charges any
format outside {webp, avif, png, jpeg, gif} the catch-all 5, but the code
charges the `"jpg"` spelling of JPEG 10 — reachable via a declared
content-type of `image/jpg`. At format `"jpg"` (all other factors neutral)
the code scores 75 while the claim's formula gives 80. -/
theorem calculateOptimizationScore_claim_counterexample :
    calculateOptimizationScore (str "jpg") 0 none true none none ≠
      max 0 (min 100 (100 - specCachePenalty none - claimFormatPenalty (str "jpg") -
        specSizePenalty 0 - specDimensionPenalty none - specVariantPenalty none -
        specComponentPenalty true)) ∧
    calculateOptimizationScore (str "jpg") 0 none true none none = 75 := by
  constructor
  · decide
  · decide

/-- C1 (amended): the optimization score is 100 minus the weighted penalties
(cache evidence present and not a hit 15; webp/avif 0, png 15, jpeg — in
either spelling `"jpeg"` or `"jpg"` — 10, gif 30, anything else 5; the
size, pixel-area, responsive-variant and framework-component penalties as
claimed), clamped to `[0, 100]`; and the gif record of the claim's example
scores exactly 20 (whether its absent variants are a summary counting 0 or
no summary at all). -/
theorem calculateOptimizationScore_spec (format : Str) (size : Int)
    (dimensions : Option (Int × Int)) (isUsingNextImage : Bool)
    (srcsetAnalysis : Option SrcSetAnalysis) (cacheInfo : Option CacheInfo) :
    calculateOptimizationScore format size dimensions isUsingNextImage srcsetAnalysis cacheInfo =
      max 0 (min 100 (100 - specCachePenalty cacheInfo - specFormatPenalty format -
        specSizePenalty size - specDimensionPenalty dimensions -
        specVariantPenalty srcsetAnalysis - specComponentPenalty isUsingNextImage)) ∧
    calculateOptimizationScore (str "gif") 1200000 none false (some (analyzeSrcSet [])) none = 20 ∧
    calculateOptimizationScore (str "gif") 1200000 none false none none = 20 := by
  refine ⟨?_, by decide, by decide⟩
  simp only [calculateOptimizationScore, cacheScoreStep_eq, formatScoreStep_eq,
    sizeScoreStep_eq, dimensionScoreStep_eq, variantScoreStep_eq, componentScoreStep_eq]

/-! ## C6 / C10 — format resolution -/

lemma formatFromExtension_mem (url : Str) : formatFromExtension url ∈ specFormatSet := by
  unfold formatFromExtension
  generalize jsToLower ((jsSplit '.' url).getLastD []) = e
  cases hb : (!e.isEmpty && imageExtensionAllowList.contains e) with
  | false =>
    simp only [hb, Bool.false_eq_true, if_false]
    decide
  | true =>
    simp only [hb, if_true]
    have he : e ∈ imageExtensionAllowList := by
      have h2 := (Bool.and_eq_true_iff.mp hb).2
      simpa using h2
    simp only [imageExtensionAllowList, List.mem_cons, List.not_mem_nil, or_false] at he
    rcases he with rfl | rfl | rfl | rfl | rfl | rfl | rfl <;> decide

/-- C6 (counterexample): a declared content-type `image/x-icon` resolves to
the raw subtype `x-icon`, which is outside the claimed finite set
{jpeg, png, gif, webp, avif, svg, unknown}. -/
theorem getImageFormatFromUrl_subtype_counterexample :
    getImageFormatFromUrl (str "https://e.com/favicon") (some (str "image/x-icon")) = str "x-icon" ∧
    str "x-icon" ∉ specFormatSet := by
  constructor
  · decide
  · decide

/-- C6 (amended): the resolution order is declared content-type first, then
URL extension; the extension path always lands in the finite set
{jpeg, png, gif, webp, avif, svg, unknown}, while a declared content-type
starting with `image/` yields the raw subtype (which need not be in that
set); decoded pixel metadata overrides a resolved value only when the
decode produced a non-empty format and never removes one otherwise. -/
theorem format_resolution_spec (url : Str) (ct : Str) (fmt m : Str) :
    (getImageFormatFromUrl url none ∈ specFormatSet) ∧
    ((!ct.isEmpty && jsStartsWith (str "image/") ct) = false →
      getImageFormatFromUrl url (some ct) ∈ specFormatSet) ∧
    ((!ct.isEmpty && jsStartsWith (str "image/") ct) = true →
      getImageFormatFromUrl url (some ct) = (jsSplit '/' ct).getD 1 []) ∧
    (m ≠ [] → formatAfterSharp (some m) fmt = m) ∧
    (formatAfterSharp none fmt = fmt) := by
  refine ⟨?_, ?_, ?_, ?_, rfl⟩
  · simpa [getImageFormatFromUrl] using formatFromExtension_mem url
  · intro h
    simpa [getImageFormatFromUrl, h] using formatFromExtension_mem url
  · intro h
    simp [getImageFormatFromUrl, h]
  · intro hm
    rcases m with _ | ⟨c, cs⟩
    · exact absurd rfl hm
    · simp [formatAfterSharp]

/-- C6 witness: instances of the amended theorem — a declared `image/webp`
wins over a `.png` extension; a non-image content-type falls back into the
finite set; a decoded `png` overrides a `jpeg` guess. -/
theorem format_resolution_spec_witness :
    getImageFormatFromUrl (str "a.b/c.png") (some (str "image/webp")) = str "webp" ∧
    getImageFormatFromUrl (str "a.b/c.png") (some (str "text/html")) ∈ specFormatSet ∧
    formatAfterSharp (some (str "png")) (str "jpeg") = str "png" := by
  refine ⟨?_, ?_, ?_⟩
  · exact ((format_resolution_spec (str "a.b/c.png") (str "image/webp") (str "x")
      (str "x")).2.2.1 (by decide)).trans (by decide)
  · exact (format_resolution_spec (str "a.b/c.png") (str "text/html") (str "x")
      (str "x")).2.1 (by decide)
  · exact (format_resolution_spec (str "a.b/c.png") (str "text/html") (str "jpeg")
      (str "png")).2.2.2.1 (by decide)

/-- C10: when the last `.`-separated segment of the URL still carries a query
string (it contains `'?'`) and no `image/…` content-type is declared,
`getImageFormatFromUrl` returns `"unknown"` — the query string is not
stripped before the extension is matched against the allow-list. -/
theorem getImageFormatFromUrl_query_not_stripped (url : Str) (ct : Option Str)
    (hct : ∀ c, ct = some c → (!c.isEmpty && jsStartsWith (str "image/") c) = false)
    (hq : '?' ∈ (jsSplit '.' url).getLastD []) :
    getImageFormatFromUrl url ct = str "unknown" := by
  have hext : getImageFormatFromUrl url ct = formatFromExtension url := by
    rcases ct with _ | c
    · rfl
    · simp [getImageFormatFromUrl, hct c rfl]
  rw [hext]
  unfold formatFromExtension
  have hq' : '?' ∈ jsToLower ((jsSplit '.' url).getLastD []) := by
    have hlow : Char.toLower '?' = '?' := by decide
    unfold jsToLower
    simpa [hlow] using List.mem_map_of_mem Char.toLower hq
  generalize he : jsToLower ((jsSplit '.' url).getLastD []) = e at hq'
  have hnc : imageExtensionAllowList.contains e = false := by
    cases hc : imageExtensionAllowList.contains e with
    | false => rfl
    | true =>
      exfalso
      have hm : e ∈ imageExtensionAllowList := by simpa using hc
      simp only [imageExtensionAllowList, List.mem_cons, List.not_mem_nil, or_false] at hm
      rcases hm with rfl | rfl | rfl | rfl | rfl | rfl | rfl <;> exact absurd hq' (by decide)
  have hb : (!e.isEmpty && imageExtensionAllowList.contains e) = false := by
    rw [hnc, Bool.and_false]
  simp only [hb, Bool.false_eq_true, if_false]

/-- C10 witness: the claim's own example, a URL ending in `.jpg?v=2` with no
declared content-type, resolves to `"unknown"`. -/
theorem getImageFormatFromUrl_query_not_stripped_witness :
    getImageFormatFromUrl (str "https://example.com/a.jpg?v=2") none = str "unknown" :=
  getImageFormatFromUrl_query_not_stripped (str "https://example.com/a.jpg?v=2") none
    (by intro c h; cases h) (by decide)

/-! ## Helper lemmas for the cache-detection stages -/

lemma truthy_iff (o : Option Str) : truthy o = true ↔ ∃ s, o = some s ∧ s ≠ [] := by
  rcases o with _ | s
  · simp [truthy]
  · rcases s with _ | ⟨c, cs⟩ <;> simp [truthy]

lemma vercelStage_truthy (headers : HeadersM) (r : CacheInfo) (v : Str)
    (hv : headers.xVercelCache = some v) (hne : v ≠ []) :
    vercelStage headers r =
      { r with cacheHit := decide (v = str "HIT"), cacheProvider := some (str "Vercel") } := by
  unfold vercelStage
  rw [hv]
  rcases v with _ | ⟨c, cs⟩
  · exact absurd rfl hne
  · rfl

lemma cloudflareStage_truthy (headers : HeadersM) (r : CacheInfo) (w : Str)
    (hw : headers.cfCacheStatus = some w) (hne : w ≠ []) :
    cloudflareStage headers r =
      { r with cacheHit := decide (jsToLower w = str "hit"),
               cacheProvider := some (str "Cloudflare") } := by
  unfold cloudflareStage
  rw [hw]
  rcases w with _ | ⟨c, cs⟩
  · exact absurd rfl hne
  · rfl

lemma cloudflareStage_skip (headers : HeadersM) (r : CacheInfo)
    (hcf : truthy headers.cfCacheStatus = false) : cloudflareStage headers r = r := by
  unfold cloudflareStage
  rcases hc : headers.cfCacheStatus with _ | s
  · rfl
  · rw [hc] at hcf
    simp only [truthy] at hcf
    simp [hcf]

lemma cloudfrontStage_skip (headers : HeadersM) (r : CacheInfo)
    (hxc : truthy headers.xCache = false ∨
      jsIncludes (str "cloudfront") (headers.xCache.getD []) = false) :
    cloudfrontStage headers r = r := by
  unfold cloudfrontStage
  rcases hc : headers.xCache with _ | s
  · rfl
  · rw [hc] at hxc
    rcases hxc with hxc | hxc
    · simp only [truthy] at hxc
      simp [hxc]
    · simp only [Option.getD_some] at hxc
      simp [hxc]

lemma fastlyStage_skip_xcache (headers : HeadersM) (r : CacheInfo)
    (hxc : truthy headers.xCache = false) : fastlyStage headers r = r := by
  unfold fastlyStage
  rcases hc : headers.xCache with _ | s
  · rfl
  · rw [hc] at hxc
    simp only [truthy] at hxc
    rcases headers.xServedBy with _ | t
    · rfl
    · simp [hxc]

lemma fastlyStage_provider_some (headers : HeadersM) (r : CacheInfo)
    (hp : r.cacheProvider.isNone = false) : fastlyStage headers r = r := by
  unfold fastlyStage
  rcases headers.xCache with _ | s
  · rfl
  · rcases headers.xServedBy with _ | t
    · rfl
    · simp [hp]

lemma akamaiStage_skip_xcache (headers : HeadersM) (r : CacheInfo)
    (hxc : truthy headers.xCache = false) : akamaiStage headers r = r := by
  unfold akamaiStage
  rcases hc : headers.xCache with _ | s
  · rfl
  · rw [hc] at hxc
    simp only [truthy] at hxc
    simp [hxc]

lemma akamaiStage_provider_some (headers : HeadersM) (r : CacheInfo)
    (hp : r.cacheProvider.isNone = false) : akamaiStage headers r = r := by
  unfold akamaiStage
  rcases headers.xCache with _ | s
  · rfl
  · simp [hp]

lemma adobeStage_provider_some (headers : HeadersM) (r : CacheInfo)
    (hp : r.cacheProvider.isNone = false) : adobeStage headers r = r := by
  unfold adobeStage
  rcases headers.xAdobeCachekey with _ | s
  · rfl
  · simp [hp]

lemma cacheControlStage_skip (o : Str → Bool) (headers : HeadersM) (r : CacheInfo)
    (hcc : truthy headers.cacheControl = false) : cacheControlStage o headers r = r := by
  unfold cacheControlStage
  rcases hc : headers.cacheControl with _ | s
  · rfl
  · rw [hc] at hcc
    simp only [truthy] at hcc
    simp [hcc]

lemma cacheControlStage_provider (o : Str → Bool) (headers : HeadersM) (r : CacheInfo)
    (p : Str) (hp : r.cacheProvider = some p) :
    (cacheControlStage o headers r).cacheProvider = some p := by
  unfold cacheControlStage
  rcases headers.cacheControl with _ | s
  · exact hp
  · rcases headers.expires with _ | e <;>
      rcases hfm : findMaxAge s with _ | n <;>
        simp only [hfm] <;> split_ifs <;> simp_all

/-! ## C5 — the Vercel hit rule is case-sensitive -/

/-- C5 (counterexample): a header set whose Vercel marker has value `"hit"`
— equal to `"HIT"` case-insensitively — is reported as a cache miss: the
code compares `vercelCache === "HIT"` exactly. -/
theorem parseCacheStatus_vercel_case_counterexample :
    (parseCacheStatus (fun _ => false) { xVercelCache := some (str "hit") }).cacheHit = false ∧
    jsToLower (str "hit") = jsToLower (str "HIT") := by
  constructor
  · decide
  · decide

/-- C5 (amended): for a header set containing a non-empty Vercel marker and
none of the headers a later rule reads (no CDN-edge marker, no `x-cache`,
no cache-control), the extractor reports a hit iff the marker's value is
exactly `"HIT"` — the comparison is case-sensitive, so `"hit"` does not
count. -/
theorem parseCacheStatus_vercel_hit_iff (oracle : Str → Bool) (h : HeadersM) (v : Str)
    (hv : h.xVercelCache = some v) (hne : v ≠ [])
    (hcf : truthy h.cfCacheStatus = false)
    (hxc : truthy h.xCache = false)
    (hcc : truthy h.cacheControl = false) :
    (parseCacheStatus oracle h).cacheHit = decide (v = str "HIT") := by
  unfold parseCacheStatus
  rw [vercelStage_truthy h _ v hv hne]
  rw [cloudflareStage_skip h _ hcf]
  rw [cloudfrontStage_skip h _ (Or.inl hxc)]
  rw [fastlyStage_skip_xcache h _ hxc]
  rw [akamaiStage_skip_xcache h _ hxc]
  rw [adobeStage_provider_some h _ (by rfl)]
  rw [cacheControlStage_skip oracle h _ hcc]

/-- C5 witness: with only `x-vercel-cache: HIT` present the amended theorem
reports a hit. -/
theorem parseCacheStatus_vercel_hit_iff_witness :
    (parseCacheStatus (fun _ => false) { xVercelCache := some (str "HIT") }).cacheHit =
      decide ((str "HIT") = str "HIT") :=
  parseCacheStatus_vercel_hit_iff (fun _ => false) { xVercelCache := some (str "HIT") }
    (str "HIT") rfl (by decide) rfl rfl rfl

/-! ## C4 — provider precedence between the first two rules -/

/-- C4 (counterexample): with both the Vercel marker and the CDN-edge
(Cloudflare) marker present, the extractor assigns provider `"Cloudflare"`,
not `"Vercel"`: the second rule has no first-match-wins guard and
overwrites the first. -/
theorem parseCacheStatus_precedence_counterexample :
    (parseCacheStatus (fun _ => false)
      { xVercelCache := some (str "HIT"), cfCacheStatus := some (str "HIT") }).cacheProvider =
      some (str "Cloudflare") ∧ str "Cloudflare" ≠ str "Vercel" := by
  constructor
  · decide
  · decide

/-- C4 (amended): for every header set in which both the Vercel marker and
the CDN-edge marker are present (and no `x-cache` value contains
`'cloudfront'`, which the equally unguarded third rule would overwrite
again), the later rule wins: `cacheProvider` is `"Cloudflare"`. -/
theorem parseCacheStatus_cloudflare_overrides_vercel (oracle : Str → Bool) (h : HeadersM)
    (hv : truthy h.xVercelCache = true) (hcf : truthy h.cfCacheStatus = true)
    (hxc : truthy h.xCache = false ∨
      jsIncludes (str "cloudfront") (h.xCache.getD []) = false) :
    (parseCacheStatus oracle h).cacheProvider = some (str "Cloudflare") := by
  obtain ⟨v, hv', hvne⟩ := (truthy_iff h.xVercelCache).mp hv
  obtain ⟨w, hw', hwne⟩ := (truthy_iff h.cfCacheStatus).mp hcf
  unfold parseCacheStatus
  rw [vercelStage_truthy h _ v hv' hvne]
  rw [cloudflareStage_truthy h _ w hw' hwne]
  rw [cloudfrontStage_skip h _ hxc]
  rw [fastlyStage_provider_some h _ (by rfl)]
  rw [akamaiStage_provider_some h _ (by rfl)]
  rw [adobeStage_provider_some h _ (by rfl)]
  exact cacheControlStage_provider oracle h _ (str "Cloudflare") rfl

/-- C4 witness: both markers set to `"HIT"` and nothing else — the provider
reported is Cloudflare. -/
theorem parseCacheStatus_cloudflare_overrides_vercel_witness :
    (parseCacheStatus (fun _ => false)
      { xVercelCache := some (str "HIT"), cfCacheStatus := some (str "HIT") }).cacheProvider =
      some (str "Cloudflare") :=
  parseCacheStatus_cloudflare_overrides_vercel (fun _ => false)
    { xVercelCache := some (str "HIT"), cfCacheStatus := some (str "HIT") }
    (by decide) (by decide) (Or.inl rfl)

/-! ## C7 — the savings aggregator -/

/-- Claim-side per-record potential savings: `byteSize * (80 - score) / 100`
when the score is below 80, else 0. -/
def specSavings (img : ImageInfo) : ℚ :=
  if img.optimizationScore < 80 then
    (img.size : ℚ) * (((80 - img.optimizationScore : Int) : ℚ) / 100)
  else 0

lemma totalSize_eq (l : List ImageInfo) : totalSize l = (l.map ImageInfo.size).sum := by
  suffices h : ∀ a : Nat, List.foldl (fun sum img => sum + img.size) a l =
      a + (l.map ImageInfo.size).sum by
    simpa [totalSize] using h 0
  induction l with
  | nil => intro a; simp
  | cons x xs ih =>
    intro a
    simp only [List.foldl_cons, List.map_cons, List.sum_cons, ih]
    omega

lemma potentialSavings_eq (l : List ImageInfo) :
    potentialSavings l = (l.map specSavings).sum := by
  suffices h : ∀ a : ℚ, List.foldl
      (fun sum img =>
        let savingsPercentage : ℚ :=
          if img.optimizationScore < 80 then ((80 - img.optimizationScore : Int) : ℚ) / 100 else 0
        sum + (img.size : ℚ) * savingsPercentage) a l = a + (l.map specSavings).sum by
    simpa [potentialSavings] using h 0
  induction l with
  | nil => intro a; simp
  | cons x xs ih =>
    intro a
    simp only [List.foldl_cons, List.map_cons, List.sum_cons, ih]
    have hx : (x.size : ℚ) *
        (if x.optimizationScore < 80 then ((80 - x.optimizationScore : Int) : ℚ) / 100 else 0) =
        specSavings x := by
      unfold specSavings
      split_ifs <;> ring
    simp only [← hx]
    ring

/-- The two records of the claim's worked example: scores 60 and 90, sizes
100000 and 200000. -/
def exampleRecordA : ImageInfo := { src := str "a", size := 100000, optimizationScore := 60 }

def exampleRecordB : ImageInfo := { src := str "b", size := 200000, optimizationScore := 90 }

/-- C7: each record contributes `byteSize * (80 - score) / 100` exactly when
its score is below 80 (else 0); `potentialSavings` is the sum of these,
`totalSize` the sum of sizes, and the percentage is
`savings / totalSize * 100`, defined as 0 when `totalSize` is 0; on the
claim's example the savings are 20000 and the percentage is 20/3 ≈ 6.67. -/
theorem aggregator_savings_spec (imgs : List ImageInfo) :
    potentialSavings imgs = (imgs.map specSavings).sum ∧
    totalSize imgs = (imgs.map ImageInfo.size).sum ∧
    (totalSize imgs = 0 → potentialSavingsPercentage imgs = 0) ∧
    (0 < totalSize imgs →
      potentialSavingsPercentage imgs = potentialSavings imgs / (totalSize imgs : ℚ) * 100) ∧
    potentialSavings [exampleRecordA, exampleRecordB] = 20000 ∧
    potentialSavingsPercentage [exampleRecordA, exampleRecordB] = 20 / 3 := by
  refine ⟨potentialSavings_eq imgs, totalSize_eq imgs, ?_, ?_, ?_, ?_⟩
  · intro h
    simp [potentialSavingsPercentage, h]
  · intro h
    simp [potentialSavingsPercentage, h]
  · norm_num [potentialSavings, exampleRecordA, exampleRecordB]
  · norm_num [potentialSavingsPercentage, potentialSavings, totalSize,
      exampleRecordA, exampleRecordB]

/-- C7 witness: the zero-record percentage is 0 (no division by zero), and
on a one-record list with positive total the percentage formula applies. -/
theorem aggregator_savings_spec_witness :
    potentialSavingsPercentage ([] : List ImageInfo) = 0 ∧
    potentialSavingsPercentage [exampleRecordA] =
      potentialSavings [exampleRecordA] / (totalSize [exampleRecordA] : ℚ) * 100 :=
  ⟨(aggregator_savings_spec []).2.2.1 rfl,
    (aggregator_savings_spec [exampleRecordA]).2.2.2.1 (by decide)⟩

/-! ## C8 — the srcset summary -/

lemma jsRatioGETwo_pos (mx mn : Int) (h : 0 < mn) :
    jsRatioGETwo mx mn = decide ((2 : ℚ) ≤ (mx : ℚ) / (mn : ℚ)) := by
  unfold jsRatioGETwo
  rw [if_pos h]
  have h' : (0 : ℚ) < (mn : ℚ) := by exact_mod_cast h
  simp only [decide_eq_decide]
  rw [le_div_iff h']
  constructor <;> intro hh <;> exact_mod_cast hh

/-- C8: the empty entry list yields the all-false/zero/null summary; and for
an entry list whose width-bearing entries are `w :: ws` with positive
minimum, the summary counts all entries, `hasAppropriateRange` is the real
ratio test `max/min ≥ 2`, `hasMobileSize`/`hasDesktopSize` compare the
minimum to 640 and the maximum to 1024, and `sizeRange` is `{min, max}`. -/
theorem analyzeSrcSet_spec (items : List SrcSetItem) (w : Int) (ws : List Int) :
    (analyzeSrcSet [] =
      { transformationCount := 0,
        hasAppropriateRange := false,
        hasMobileSize := false,
        hasDesktopSize := false,
        sizeRange := none }) ∧
    (items.filterMap SrcSetItem.width = w :: ws →
      0 < ws.foldl min w →
      analyzeSrcSet items =
        { transformationCount := items.length,
          hasAppropriateRange :=
            decide ((2 : ℚ) ≤ ((ws.foldl max w : Int) : ℚ) / ((ws.foldl min w : Int) : ℚ)),
          hasMobileSize := decide (ws.foldl min w ≤ 640),
          hasDesktopSize := decide (1024 ≤ ws.foldl max w),
          sizeRange := some (ws.foldl min w, ws.foldl max w) }) := by
  refine ⟨by decide, ?_⟩
  intro hw hpos
  have hne : items.isEmpty = false := by
    rcases items with _ | ⟨x, xs⟩
    · simp at hw
    · rfl
  unfold analyzeSrcSet
  rw [hne]
  simp only [Bool.false_eq_true, if_false, hw]
  rw [jsRatioGETwo_pos _ _ hpos]

/-- C8 witness: two width entries 320w and 1280w — ratio 4 ≥ 2, mobile and
desktop both covered, range {320, 1280}, count 2. -/
theorem analyzeSrcSet_spec_witness :
    analyzeSrcSet [{ url := str "u1", width := some 320 }, { url := str "u2", width := some 1280 }] =
      { transformationCount := 2,
        hasAppropriateRange := true,
        hasMobileSize := true,
        hasDesktopSize := true,
        sizeRange := some (320, 1280) } := by
  have h := (analyzeSrcSet_spec
    [{ url := str "u1", width := some 320 }, { url := str "u2", width := some 1280 }]
    320 [1280]).2 (by decide) (by decide)
  rw [h]
  norm_num

/-! ## C9 — invalid URLs fail before any network activity -/

/-- C9: when the URL does not parse (`new URL` throws), `analyzeUrl` fails
with the invalid-URL error and the network-event trace is empty — no
collection, page fetch or image fetch happened. -/
theorem analyzeUrl_invalid_url (env : AnalyzeEnv) (url : Str)
    (h : env.parseUrl url = none) :
    analyzeUrl env url = (Except.error AnalyzeError.invalidUrl, []) := by
  unfold analyzeUrl
  rw [h]

/-- C9 witness: an environment whose URL parser rejects `"not a url"`
(as WHATWG parsing does) yields the invalid-URL failure with no network
events. -/
theorem analyzeUrl_invalid_url_witness :
    analyzeUrl
      { parseUrl := fun _ => none, puppeteerAvailable := true,
        runCollection := fun _ _ _ => (Except.error AnalyzeError.fetchFailed, []) }
      (str "not a url") = (Except.error AnalyzeError.invalidUrl, []) :=
  analyzeUrl_invalid_url
    { parseUrl := fun _ => none, puppeteerAvailable := true,
      runCollection := fun _ _ _ => (Except.error AnalyzeError.fetchFailed, []) }
    (str "not a url") rfl

/-! ## Helper lemmas for the LCP Selector -/

/-- Claim-side: `x` is the first record in `l` attaining the maximal size
(everything before it is strictly smaller, everything after no larger). -/
def IsFirstLargest (l : List ImageInfo) (x : ImageInfo) : Prop :=
  ∃ l1 l2, l = l1 ++ x :: l2 ∧ (∀ y ∈ l1, y.size < x.size) ∧ (∀ y ∈ l2, y.size ≤ x.size)

lemma markLCP_isLCP (n : Bool) (img : ImageInfo) : (markLCP n img).isLCP = true := by
  simp [markLCP, apply_ite ImageInfo.isLCP]

lemma markLCP_src (n : Bool) (img : ImageInfo) : (markLCP n img).src = img.src := by
  simp [markLCP, apply_ite ImageInfo.src]

/-- `reduce` with the first element as the initial value: the self-comparison
of the head is a no-op. -/
lemma foldl_largest_cons_self (v : ImageInfo) (l : List ImageInfo) :
    (v :: l).foldl (fun largest current => if current.size > largest.size then current else largest) v =
      l.foldl (fun largest current => if current.size > largest.size then current else largest) v := by
  simp [List.foldl_cons]

/-- The stable `reduce` over a non-empty list picks the first record
attaining the maximal size. -/
lemma foldl_largest_isFirstLargest : ∀ (l : List ImageInfo) (v m : ImageInfo),
    m = l.foldl (fun largest current => if current.size > largest.size then current else largest) v →
    IsFirstLargest (v :: l) m := by
  intro l
  induction l with
  | nil =>
    intro v m hm
    rw [List.foldl_nil] at hm
    subst hm
    refine ⟨[], [], rfl, ?_, ?_⟩ <;> intro y hy <;> exact absurd hy (List.not_mem_nil y)
  | cons c t ih =>
    intro v m hm
    rw [List.foldl_cons] at hm
    by_cases h : c.size > v.size
    · rw [if_pos h] at hm
      obtain ⟨l1, l2, heq, h1, h2⟩ := ih c m hm
      have hcm : c.size ≤ m.size := by
        rcases l1 with _ | ⟨a, l1'⟩
        · simp only [List.nil_append, List.cons.injEq] at heq
          exact le_of_eq (congrArg ImageInfo.size heq.1)
        · simp only [List.cons_append, List.cons.injEq] at heq
          rw [heq.1]
          exact le_of_lt (h1 a (List.mem_cons_self a l1'))
      refine ⟨v :: l1, l2, ?_, ?_, h2⟩
      · rw [List.cons_append, ← heq]
      · intro y hy
        rcases List.mem_cons.mp hy with rfl | hy'
        · exact lt_of_lt_of_le h hcm
        · exact h1 y hy'
    · rw [if_neg h] at hm
      push_neg at h
      obtain ⟨l1, l2, heq, h1, h2⟩ := ih v m hm
      rcases l1 with _ | ⟨a, l1'⟩
      · simp only [List.nil_append, List.cons.injEq] at heq
        refine ⟨[], c :: t, by simp [heq.1], ?_, ?_⟩
        · intro y hy
          exact absurd hy (List.not_mem_nil y)
        · intro y hy
          rcases List.mem_cons.mp hy with rfl | hy'
          · exact le_trans h (le_of_eq (congrArg ImageInfo.size heq.1))
          · exact h2 y (heq.2 ▸ hy')
      · simp only [List.cons_append, List.cons.injEq] at heq
        have hvm : v.size < m.size := by
          rw [heq.1]
          exact h1 a (List.mem_cons_self a l1')
        refine ⟨v :: c :: l1', l2, ?_, ?_, h2⟩
        · rw [heq.2]
          simp
        · intro y hy
          rcases List.mem_cons.mp hy with rfl | hy'
          · exact hvm
          · rcases List.mem_cons.mp hy' with rfl | hy''
            · exact lt_of_le_of_lt h hvm
            · exact h1 y (List.mem_cons_of_mem a hy'')

/-- The running `{src, size}` tracker either never fires (everything is at
most the start size) or returns the first record strictly exceeding the
start size that attains the maximal size. -/
lemma trackLargest_cases : ∀ (l : List ImageInfo) (acc : Str × Nat),
    (l.foldl (fun largest img => if img.size > largest.2 then (img.src, img.size) else largest) acc =
        acc ∧ ∀ r ∈ l, r.size ≤ acc.2) ∨
    (∃ l1 x l2, l = l1 ++ x :: l2 ∧
      l.foldl (fun largest img => if img.size > largest.2 then (img.src, img.size) else largest) acc =
        (x.src, x.size) ∧
      acc.2 < x.size ∧ (∀ y ∈ l1, y.size < x.size) ∧ (∀ y ∈ l2, y.size ≤ x.size)) := by
  intro l
  induction l with
  | nil =>
    intro acc
    exact Or.inl ⟨rfl, fun r hr => absurd hr (List.not_mem_nil r)⟩
  | cons c t ih =>
    intro acc
    rw [List.foldl_cons]
    by_cases h : c.size > acc.2
    · rw [if_pos h]
      rcases ih (c.src, c.size) with ⟨heq, hle⟩ | ⟨l1, x, l2, heq, hfold, hlt, h1, h2⟩
      · refine Or.inr ⟨[], c, t, rfl, heq, h, ?_, ?_⟩
        · intro y hy
          exact absurd hy (List.not_mem_nil y)
        · intro y hy
          exact hle y hy
      · refine Or.inr ⟨c :: l1, x, l2, by simp [heq], hfold, lt_trans h hlt, ?_, h2⟩
        intro y hy
        rcases List.mem_cons.mp hy with rfl | hy'
        · exact hlt
        · exact h1 y hy'
    · rw [if_neg h]
      push_neg at h
      rcases ih acc with ⟨heq, hle⟩ | ⟨l1, x, l2, heq, hfold, hlt, h1, h2⟩
      · refine Or.inl ⟨heq, ?_⟩
        intro y hy
        rcases List.mem_cons.mp hy with rfl | hy'
        · exact h
        · exact hle y hy'
      · refine Or.inr ⟨c :: l1, x, l2, by simp [heq], hfold, hlt, ?_, h2⟩
        intro y hy
        rcases List.mem_cons.mp hy with rfl | hy'
        · exact lt_of_le_of_lt h hlt
        · exact h1 y hy'

/-- Marking by `src` match: the number of flagged records equals the number
of records whose `src` equals the chosen one (all records start unflagged). -/
lemma countP_flag_map (s : Str) (n : Bool) : ∀ (l : List ImageInfo),
    (∀ r ∈ l, r.isLCP = false) →
    (l.map (fun img => if img.src = s then markLCP n img else img)).countP (fun r => r.isLCP) =
      l.countP (fun r => decide (r.src = s)) := by
  intro l
  induction l with
  | nil => intro _; rfl
  | cons x t ih =>
    intro h0
    rw [List.map_cons, List.countP_cons, List.countP_cons,
      ih (fun r hr => h0 r (List.mem_cons_of_mem x hr))]
    congr 1
    by_cases hx : x.src = s
    · simp [hx, markLCP_isLCP]
    · simp [hx, h0 x (List.mem_cons_self x t)]

/-- With pairwise-distinct `src`s, exactly one record matches a member's. -/
lemma countP_src_eq_one : ∀ (l : List ImageInfo) (x : ImageInfo), x ∈ l →
    (l.map ImageInfo.src).Nodup → l.countP (fun r => decide (r.src = x.src)) = 1 := by
  intro l
  induction l with
  | nil =>
    intro x hx
    exact absurd hx (List.not_mem_nil x)
  | cons a t ih =>
    intro x hx hnd
    rw [List.map_cons, List.nodup_cons] at hnd
    rw [List.countP_cons]
    rcases List.mem_cons.mp hx with rfl | hx'
    · have hz : t.countP (fun r => decide (r.src = x.src)) = 0 := by
        rw [List.countP_eq_zero]
        intro r hr
        simp only [decide_eq_true_eq]
        intro hcontra
        refine hnd.1 ?_
        rw [← hcontra]
        exact List.mem_map_of_mem ImageInfo.src hr
      simp [hz]
    · have hne : ¬(a.src = x.src) := by
        intro hcontra
        refine hnd.1 ?_
        rw [hcontra]
        exact List.mem_map_of_mem ImageInfo.src hx'
      rw [ih x hx' hnd.2]
      simp [hne]

/-! ## C2 — exactly one LCP flag -/

/-- C2 (counterexample): a non-empty record set can end up with zero flagged
records: a single invisible record of size 0 falls to the fallback branch,
whose tracker still holds `{src: "", size: 0}`, and no `src` matches the
empty string. -/
theorem flagLCP_zero_flags_counterexample :
    (flagLCP false [{ src := str "a", size := 0, isVisible := false }]).countP
      (fun r => r.isLCP) = 0 ∧
    ([{ src := str "a", size := 0, isVisible := false }] : List ImageInfo) ≠ [] := by
  constructor
  · decide
  · decide

/-- C2 (amended): exactly one record is flagged whenever the records carry
pairwise-distinct `src`s, all start unflagged, and either some record is
visible and in-viewport or some record has positive byte size (flagging
matches by `src`, so duplicates would be flagged together, and the fallback
tracker starts at size 0 with an unmatchable empty `src`); an empty record
set keeps zero flags; and these are exactly the records `analyzeUrl`
returns after a successful collection. -/
theorem flagLCP_unique_flag (nextjs : Bool) (rs : List ImageInfo)
    (hnd : (rs.map ImageInfo.src).Nodup)
    (h0 : ∀ r ∈ rs, r.isLCP = false)
    (hex : (∃ r ∈ rs, (r.isVisible && r.isInViewport) = true) ∨ (∃ r ∈ rs, 0 < r.size)) :
    (flagLCP nextjs rs).countP (fun r => r.isLCP) = 1 ∧
    (∀ b : Bool, flagLCP b [] = []) ∧
    (∀ env url p nextjs2 trace, env.parseUrl url = some p →
      env.runCollection env.puppeteerAvailable p url = (Except.ok (nextjs2, rs), trace) →
      ∃ res, analyzeUrl env url = (Except.ok res, trace) ∧ res.images = flagLCP nextjs2 rs) := by
  refine ⟨?_, fun b => rfl, ?_⟩
  · cases hfil : rs.filter (fun img => img.isVisible && img.isInViewport) with
    | nil =>
      have hpos : ∃ r ∈ rs, 0 < r.size := by
        rcases hex with ⟨r, hr, hb⟩ | hp
        · exfalso
          have hmem : r ∈ rs.filter (fun img => img.isVisible && img.isInViewport) :=
            List.mem_filter.mpr ⟨hr, hb⟩
          rw [hfil] at hmem
          exact absurd hmem (List.not_mem_nil r)
        · exact hp
      rcases trackLargest_cases rs (str "", 0) with ⟨heq, hle⟩ | ⟨l1, x, l2, heq, hfold, hlt, h1, h2⟩
      · obtain ⟨r, hr, hrpos⟩ := hpos
        have := hle r hr
        omega
      · have hx : x ∈ rs := by
          rw [heq]
          exact List.mem_append_right l1 (List.mem_cons_self x l2)
        simp only [flagLCP, trackLargestImage, hfil, hfold]
        rw [countP_flag_map x.src nextjs rs h0, countP_src_eq_one rs x hx hnd]
    | cons v vs =>
      obtain ⟨l1, l2, heq, h1, h2⟩ := foldl_largest_isFirstLargest vs v _ rfl
      have hmem : (vs.foldl
          (fun largest current => if current.size > largest.size then current else largest) v) ∈
          v :: vs := by
        rw [heq]
        exact List.mem_append_right l1 (List.mem_cons_self _ l2)
      have hmem' : (vs.foldl
          (fun largest current => if current.size > largest.size then current else largest) v) ∈
          rs := by
        refine List.mem_of_mem_filter (p := fun img => img.isVisible && img.isInViewport) ?_
        rw [hfil]
        exact hmem
      simp only [flagLCP, hfil, foldl_largest_cons_self]
      rw [countP_flag_map _ nextjs rs h0, countP_src_eq_one rs _ hmem' hnd]
  · intro env url p nextjs2 trace hp hrun
    simp only [analyzeUrl, hp, hrun]
    exact ⟨_, rfl, rfl⟩

/-- Two distinct-src records, the first visible and in-viewport. -/
def lcpExampleA : ImageInfo := { src := str "a", size := 5 }

def lcpExampleB : ImageInfo := { src := str "b", size := 3, isVisible := false }

/-- C2 witness: on two concrete distinct-src records with a visible
in-viewport member, exactly one record is flagged. -/
theorem flagLCP_unique_flag_witness :
    (flagLCP true [lcpExampleA, lcpExampleB]).countP (fun r => r.isLCP) = 1 :=
  (flagLCP_unique_flag true [lcpExampleA, lcpExampleB] (by decide) (by decide)
    (Or.inl ⟨lcpExampleA, by decide, by decide⟩)).1

/-! ## C3 — which record gets flagged -/

/-- A record used twice to exhibit duplicate `src`s. -/
def dupRecord : ImageInfo := { src := str "dup", size := 7 }

/-- C3 (counterexample): flagging matches by `src` string, so with two
records sharing a `src` both get flagged — not "the single record with the
largest byteSize". -/
theorem flagLCP_duplicate_src_counterexample :
    (flagLCP false [dupRecord, dupRecord]).countP (fun r => r.isLCP) = 2 := by
  decide

/-- The three visible in-viewport records of the claim's example, with byte
sizes 10000, 99999 and 50000. -/
def lcpSize1 : ImageInfo := { src := str "s1", size := 10000 }

def lcpSize2 : ImageInfo := { src := str "s2", size := 99999 }

def lcpSize3 : ImageInfo := { src := str "s3", size := 50000 }

/-- C3 (amended): when the visible-and-in-viewport partition is non-empty,
there is a first-encountered record of maximal byte size in it, and a
record is flagged iff its `src` equals that record's (a single record
whenever `src`s are distinct); in the fallback the same holds over all
records provided some record has positive byte size (with all sizes 0
nothing is flagged, as the tracker starts at size 0); on the example sizes
[10000, 99999, 50000] exactly the second record is flagged. -/
theorem flagLCP_first_largest_spec (nextjs : Bool) (rs : List ImageInfo)
    (h0 : ∀ r ∈ rs, r.isLCP = false) :
    (∀ v vs, rs.filter (fun img => img.isVisible && img.isInViewport) = v :: vs →
      ∃ x, IsFirstLargest (v :: vs) x ∧
        ∀ r ∈ flagLCP nextjs rs, (r.isLCP = true ↔ r.src = x.src)) ∧
    (rs.filter (fun img => img.isVisible && img.isInViewport) = [] →
      (∃ r ∈ rs, 0 < r.size) →
      ∃ x, IsFirstLargest rs x ∧
        ∀ r ∈ flagLCP nextjs rs, (r.isLCP = true ↔ r.src = x.src)) ∧
    (flagLCP false [lcpSize1, lcpSize2, lcpSize3]).map (fun r => r.isLCP) =
      [false, true, false] := by
  refine ⟨?_, ?_, by decide⟩
  · intro v vs hfil
    refine ⟨vs.foldl (fun largest current => if current.size > largest.size then current else largest) v,
      foldl_largest_isFirstLargest vs v _ rfl, ?_⟩
    intro r hr
    simp only [flagLCP, hfil, foldl_largest_cons_self] at hr
    obtain ⟨orig, ho, rfl⟩ := List.mem_map.mp hr
    by_cases horig : orig.src =
      (vs.foldl (fun largest current => if current.size > largest.size then current else largest) v).src
    · simp [horig, markLCP_isLCP, markLCP_src]
    · simp [horig, h0 orig ho]
  · intro hfil hpos
    rcases trackLargest_cases rs (str "", 0) with ⟨heq, hle⟩ | ⟨l1, x, l2, heq, hfold, hlt, h1, h2⟩
    · obtain ⟨r, hr, hrpos⟩ := hpos
      have := hle r hr
      omega
    · refine ⟨x, ⟨l1, l2, heq, h1, h2⟩, ?_⟩
      intro r hr
      simp only [flagLCP, trackLargestImage, hfil, hfold] at hr
      obtain ⟨orig, ho, rfl⟩ := List.mem_map.mp hr
      by_cases horig : orig.src = x.src
      · simp [horig, markLCP_isLCP, markLCP_src]
      · simp [horig, h0 orig ho]

/-- C3 witness: on the three example records exactly the second is flagged. -/
theorem flagLCP_first_largest_spec_witness :
    (flagLCP false [lcpSize1, lcpSize2, lcpSize3]).map (fun r => r.isLCP) =
      [false, true, false] :=
  (flagLCP_first_largest_spec false [lcpSize1, lcpSize2, lcpSize3] (by decide)).2.2

end NextImageCheck
